import Mathlib

/-!
The link `sic_connection`: the astrocyte-to-neuron connection of NEST.

A shallow embedding of `models/sic_connection.h`.

* The link is the class `SICConnection< targetidentifierT >`: a weight (`weight_`, a C++
  `double`) on top of the generic base `Connection< targetidentifierT >`, which contributes the
  target handle (`target_`) and the delay.
* C++ `double` is the type parameter `D`.  The link never computes with a `double`, it only
  stores and copies one, so every statement holds for whatever `D` is.
* A method that mutates `*this` is a function that returns the new link next to what the C++
  method returns.  A C++ exception is the `Except.error` result; the link that is returned with
  it is the object as the throw leaves it.
* Calls that leave the link (the two capability queries and the dispatch `e()`) are recorded
  in a trace, a `List (Call D)`, so that "how many events were delivered" is a statement about
  a value.
* Dereferencing a null target pointer is undefined behaviour in C++; `send` returns `none`
  there.

Declarations that come from files other than `sic_connection.h` (`connection.h`, `event.h`,
`node.h`, the dictionary helpers) are marked as such in their doc comments.
-/

namespace nest

/-! ## Collaborators: nodes, events, exceptions -/

/-- A `Node*`: nodes are referred to by address; `Option NodePtr` is a nullable pointer. -/
abbrev NodePtr := Nat

/-- The exceptions that reach a caller of the link. -/
inductive KernelException where
  | IllegalConnection
  | UnknownReceptorType
  | TypeMismatch
  | BadProperty
  deriving DecidableEq, Repr

/-- Modelled from the spec: the Signal/Event type `SICEvent` (declared in `event.h`, outside
`sic_connection.h`).  It has the four fields that `send` stamps (weight, delay in
steps, receiver, receiver port), the sender stamped during validation, and the payload value
that the source placed in the event. -/
structure SICEvent (D : Type) where
  sender_ : Option NodePtr
  receiver_ : Option NodePtr
  rp_ : Nat
  d_ : Nat
  w_ : D
  payload : D
  deriving DecidableEq, Repr

namespace SICEvent

variable {D : Type}

/-- The default-constructed event `EventType ge;`: no sender, no receiver, port 0, delay 1,
weight 1.0, empty payload. -/
def new [Zero D] [One D] : SICEvent D :=
  { sender_ := none, receiver_ := none, rp_ := 0, d_ := 1, w_ := 1, payload := 0 }

/-- `Event::set_sender( Node& )`. -/
def set_sender (e : SICEvent D) (s : NodePtr) : SICEvent D :=
  { e with sender_ := some s }

/-- `Event::set_weight( double )`. -/
def set_weight (e : SICEvent D) (w : D) : SICEvent D :=
  { e with w_ := w }

/-- `Event::set_delay_steps( long )`. -/
def set_delay_steps (e : SICEvent D) (d : Nat) : SICEvent D :=
  { e with d_ := d }

/-- `Event::set_receiver( Node& )`. -/
def set_receiver (e : SICEvent D) (r : NodePtr) : SICEvent D :=
  { e with receiver_ := some r }

/-- `Event::set_rport( size_t )`. -/
def set_rport (e : SICEvent D) (p : Nat) : SICEvent D :=
  { e with rp_ := p }

/-- Modelled from the spec: the amplitude observed at the target, "the product of whatever
payload value the source placed in the event and this link's weight".  The multiplication is
done by the target's handler, which lives in the target's model, outside
`sic_connection.h`. -/
def amplitude [Mul D] (e : SICEvent D) : D :=
  e.payload * e.w_

end SICEvent

/-- A call that leaves the link: the source-side query, the target-side query, and the
delivery of an event to its receiver. -/
inductive Call (D : Type) where
  | sends_secondary_event (node : NodePtr) (ge : SICEvent D)
  | handles_test_event (node : NodePtr) (ge : SICEvent D) (receptor_type : Nat)
  | handle (node : NodePtr) (e : SICEvent D)
  deriving DecidableEq, Repr

/-- Whether a recorded call is the delivery of an event. -/
def Call.is_handle {D : Type} : Call D → Bool
  | .handle _ _ => true
  | _ => false

/-- The events delivered so far, oldest first. -/
def deliveries {D : Type} (tr : List (Call D)) : List (Call D) :=
  tr.filter Call.is_handle

/-- The capability interface of a unit (`node.h`): its address and its answers to the two
queries of `check_connection`.  `sends_secondary_event( SICEvent& )` gets the event by
reference, so it returns the event it leaves behind; both queries may throw. -/
structure Node (D : Type) where
  addr : NodePtr
  sends_secondary_event : SICEvent D → Except KernelException (SICEvent D)
  handles_test_event : SICEvent D → Nat → Except KernelException Nat

/-- The call operator `e()` of the event: it hands the event to its receiver
(`receiver_->handle( *this )`). -/
def SICEvent.dispatch {D : Type} (e : SICEvent D) (tr : List (Call D)) : Option (List (Call D)) :=
  match e.receiver_ with
  | none => none
  | some r => some (tr ++ [Call.handle r e])

/-! ## The property dictionary -/

/-- The keys of the property dictionary (`names::delay`, `names::weight`, `names::size_of`,
the two keys of the target handle, and any other key). -/
inductive Name where
  | delay
  | weight
  | size_of
  | rport
  | target
  | other (n : Nat)
  deriving DecidableEq, Repr

/-- A typed value of the dictionary. -/
inductive Datum (D : Type) where
  | double (x : D)
  | long (n : Int)
  | string (s : String)
  deriving DecidableEq, Repr

/-- The dictionary behind a `DictionaryDatum`. -/
abbrev Dictionary (D : Type) := List (Name × Datum D)

namespace Dictionary

variable {D : Type}

/-- Look a key up. -/
def lookup (d : Dictionary D) (n : Name) : Option (Datum D) :=
  match d with
  | [] => none
  | (k, v) :: rest => if k = n then some v else lookup rest n

/-- Insert or overwrite: what `def< T >( d, n, v )` does to the dictionary. -/
def insert (d : Dictionary D) (n : Name) (v : Datum D) : Dictionary D :=
  match d with
  | [] => [(n, v)]
  | (k, u) :: rest => if k = n then (n, v) :: rest else (k, u) :: insert rest n v

end Dictionary

/-- The helper `updateValue< double >( d, n, value )`: when `d` has no key `n` it leaves `value`
alone and answers `false`; when the entry is a double it is copied into `value`; an entry of
another type is a `TypeMismatch`. -/
def updateValue_double {D : Type} (d : Dictionary D) (n : Name) (value : D) :
    Except KernelException (Bool × D) :=
  match d.lookup n with
  | none => .ok (false, value)
  | some (.double x) => .ok (true, x)
  | some _ => .error .TypeMismatch

/-! ## The generic base `Connection< targetidentifierT >` -/

/-- Modelled from the spec: the target handle `targetidentifierT` ("identifies the destination
unit and a port (receptor index) on that unit"), declared in `target_identifier.h`, outside
`sic_connection.h`.  An unbound handle has a null target and port 0. -/
structure TargetIdentifier where
  target_ : Option NodePtr
  rport_ : Nat
  deriving DecidableEq, Repr

namespace TargetIdentifier

/-- The setter `set_rport`. -/
def set_rport (ti : TargetIdentifier) (p : Nat) : TargetIdentifier :=
  { ti with rport_ := p }

/-- The setter `set_target`. -/
def set_target (ti : TargetIdentifier) (t : NodePtr) : TargetIdentifier :=
  { ti with target_ := some t }

/-- The handle's contribution to `get_status`: its port and, when bound, its target. -/
def get_status {D : Type} (ti : TargetIdentifier) (d : Dictionary D) : Dictionary D :=
  let d1 := d.insert Name.rport (Datum.long ti.rport_)
  match ti.target_ with
  | none => d1
  | some t => d1.insert Name.target (Datum.long t)

end TargetIdentifier

/-- Modelled from the spec: the state of the generic base `Connection< targetidentifierT >`
(declared in `connection.h`, outside `sic_connection.h`): the bound target handle and the
delay, a non-negative integer step count. -/
structure Connection where
  target_ : TargetIdentifier
  delay : Nat
  deriving DecidableEq, Repr

namespace Connection

/-- Modelled from the spec: the base constructor `ConnectionBase()`, defined in
`connection.h`: an unbound target handle and the kernel's default delay. -/
def new (default_delay : Nat) : Connection :=
  { target_ := { target_ := none, rport_ := 0 }, delay := default_delay }

/-- Modelled from the spec: `ConnectionBase::get_status`, defined in `connection.h`:
the snapshot gets "the inherited generic link properties (delay, any base-class fields)". -/
def get_status {D : Type} (c : Connection) (d : Dictionary D) : Dictionary D :=
  c.target_.get_status (d.insert Name.delay (Datum.long c.delay))

/-- Modelled from the spec: `ConnectionBase::set_status`, defined in `connection.h`:
"the inherited generic updates".  For this link kind the delay key is "read-only" and the
delay "fixed once the link is constructed (no delay mutation API is exposed)", so a delay
entry of the right type is a no-op; a "wrong value type for ... inherited fields" is
"rejected by the generic update mechanism; the link's prior state remains unchanged".  The
target handle is not updated. -/
def set_status {D : Type} (c : Connection) (d : Dictionary D) :
    Except KernelException Unit × Connection :=
  match d.lookup Name.delay with
  | none => (.ok (), c)
  | some (.long _) => (.ok (), c)
  | some _ => (.error .TypeMismatch, c)

end Connection

/-! ## The link `SICConnection< targetidentifierT >` -/

/-- The class `SICConnection`: the base `Connection` and the member `double weight_`. -/
structure SICConnection (D : Type) extends Connection where
  weight_ : D
  deriving DecidableEq, Repr

namespace SICConnection

variable {D : Type}

/-- The default constructor: `ConnectionBase()` and `weight_( 1.0 )`. -/
def new [One D] (default_delay : Nat) : SICConnection D :=
  { toConnection := Connection.new default_delay, weight_ := 1 }

/-- The inherited `get_delay_steps()`. -/
def get_delay_steps (c : SICConnection D) : Nat :=
  c.delay

/-- The inherited `get_rport()`. -/
def get_rport (c : SICConnection D) : Nat :=
  c.target_.rport_

/-- The inherited `get_target( t )`: the bound target pointer, null when unbound. -/
def get_target (c : SICConnection D) (_t : Nat) : Option NodePtr :=
  c.target_.target_

/-- The method `check_connection( s, t, receptor_type, cp )`.  The event `ge` is built, `s` is
asked whether it emits it, `ge` is stamped with `s`, `t` is asked for the port, and only then
`target_.set_rport` and `target_.set_target` run.  A query that throws ends the call. -/
def check_connection [Zero D] [One D] (s t : Node D) (receptor_type : Nat)
    (c : SICConnection D) (tr : List (Call D)) :
    Except KernelException Unit × SICConnection D × List (Call D) :=
  let ge : SICEvent D := SICEvent.new
  let tr1 := tr ++ [Call.sends_secondary_event s.addr ge]
  match s.sends_secondary_event ge with
  | .error ex => (.error ex, c, tr1)
  | .ok ge1 =>
    let ge2 := ge1.set_sender s.addr
    let tr2 := tr1 ++ [Call.handles_test_event t.addr ge2 receptor_type]
    match t.handles_test_event ge2 receptor_type with
    | .error ex => (.error ex, c, tr2)
    | .ok p =>
      let c1 : SICConnection D := { c with target_ := c.target_.set_rport p }
      let c2 : SICConnection D := { c1 with target_ := c1.target_.set_target t.addr }
      (.ok (), c2, tr2)

/-- The method `send( e, t, cp )`: stamp weight, delay, receiver and port, then `e()`.
The result is the link, the event as the caller sees it afterwards, and the trace; `none` is
the dereference of a null target. -/
def send (c : SICConnection D) (e : SICEvent D) (t : Nat) (tr : List (Call D)) :
    Option (SICConnection D × SICEvent D × List (Call D)) :=
  let e1 := e.set_weight c.weight_
  let e2 := e1.set_delay_steps c.get_delay_steps
  match c.get_target t with
  | none => none
  | some tgt =>
    let e3 := e2.set_receiver tgt
    let e4 := e3.set_rport c.get_rport
    match e4.dispatch tr with
    | none => none
    | some tr1 => some (c, e4, tr1)

/-- The method `set_weight( w )`. -/
def set_weight (c : SICConnection D) (w : D) : SICConnection D :=
  { c with weight_ := w }

/-- The method `get_status( d )`: the base's entries, then `weight`, then `size_of`
(`sizeof( *this )`, a constant of the build). -/
def get_status (sizeof_this : Nat) (c : SICConnection D) (d : Dictionary D) : Dictionary D :=
  let d1 := c.toConnection.get_status d
  let d2 := d1.insert Name.weight (Datum.double c.weight_)
  d2.insert Name.size_of (Datum.long sizeof_this)

/-- The method `set_status( d, cm )`: `ConnectionBase::set_status( d, cm )` first, then
`updateValue< double >( d, names::weight, weight_ )`.  When the second statement throws, the
first has already run. -/
def set_status (c : SICConnection D) (d : Dictionary D) :
    Except KernelException Unit × SICConnection D :=
  match c.toConnection.set_status d with
  | (.error ex, b) => (.error ex, { c with toConnection := b })
  | (.ok (), b) =>
    let c1 : SICConnection D := { c with toConnection := b }
    match updateValue_double d Name.weight c1.weight_ with
    | .error ex => (.error ex, c1)
    | .ok (_, w) => (.ok (), { c1 with weight_ := w })

end SICConnection

/-! ## Sequences of calls on a validated link -/

/-- One call on the link, other than validation. -/
inductive Op (D : Type) where
  | send (e : SICEvent D) (t : Nat)
  | get_status (sizeof_this : Nat) (d : Dictionary D)
  | set_status (d : Dictionary D)
  | set_weight (w : D)

/-- Perform one call.  An exception of `set_status` is caught by the caller, who goes on with
the link as the throw left it. -/
def Op.apply {D : Type} (op : Op D) (st : SICConnection D × List (Call D)) :
    Option (SICConnection D × List (Call D)) :=
  match op with
  | .send e t =>
    match st.1.send e t st.2 with
    | none => none
    | some (c, _, tr) => some (c, tr)
  | .get_status _ _ => some st
  | .set_status d => some ((st.1.set_status d).2, st.2)
  | .set_weight w => some (st.1.set_weight w, st.2)

/-- Perform a sequence of calls, first to last. -/
def run {D : Type} (ops : List (Op D)) (st : SICConnection D × List (Call D)) :
    Option (SICConnection D × List (Call D)) :=
  match ops with
  | [] => some st
  | op :: rest =>
    match op.apply st with
    | none => none
    | some st1 => run rest st1

/-! ## Concrete units, links and dictionaries -/

/-- An astrocyte-like unit at address 1: it emits the event and accepts none. -/
def example_astrocyte : Node ℚ :=
  { addr := 1
    sends_secondary_event := fun ge => .ok ge
    handles_test_event := fun _ _ => .error .IllegalConnection }

/-- A neuron-like unit at address 2: it does not emit the event; it accepts it at receptor 0
and answers port 0. -/
def example_neuron : Node ℚ :=
  { addr := 2
    sends_secondary_event := fun _ => .error .IllegalConnection
    handles_test_event := fun _ receptor_type =>
      if receptor_type = 0 then .ok 0 else .error .UnknownReceptorType }

/-- A freshly constructed link (default delay 1, weight 1.0, unbound). -/
def example_fresh : SICConnection ℚ :=
  SICConnection.new 1

/-- A link bound to the neuron at port 0, with delay 1 and the given weight. -/
def example_bound (w : ℚ) : SICConnection ℚ :=
  { target_ := { target_ := some 2, rport_ := 0 }, delay := 1, weight_ := w }

/-- An event as a source hands it over: payload `p`, the other fields stale. -/
def example_event (p : ℚ) : SICEvent ℚ :=
  { sender_ := some 1, receiver_ := some 7, rp_ := 9, d_ := 4, w_ := 5, payload := p }

/-- An update with a valid delay entry and a weight entry of the wrong type. -/
def example_mixed_update : Dictionary ℚ :=
  [(Name.delay, Datum.long 5), (Name.weight, Datum.string "heavy")]

/-- An update with a delay entry only. -/
def example_delay_update : Dictionary ℚ :=
  [(Name.delay, Datum.long 5)]

/-- An update with a delay entry of the wrong type and a valid weight entry. -/
def example_bad_delay_update : Dictionary ℚ :=
  [(Name.delay, Datum.string "soon"), (Name.weight, Datum.double 3)]

/-- An update with a weight entry only. -/
def example_weight_update : Dictionary ℚ :=
  [(Name.weight, Datum.double (5 / 2))]

/-! ## Lemmas on the dictionary -/

theorem Dictionary.lookup_insert_self {D : Type} (d : Dictionary D) (n : Name) (v : Datum D) :
    (d.insert n v).lookup n = some v := by
  induction d with
  | nil => simp [Dictionary.insert, Dictionary.lookup]
  | cons hd rest ih =>
    obtain ⟨k, u⟩ := hd
    by_cases hk : k = n
    · simp [Dictionary.insert, Dictionary.lookup, hk]
    · simp [Dictionary.insert, Dictionary.lookup, hk, ih]

theorem Dictionary.lookup_insert_other {D : Type} (d : Dictionary D) (n m : Name) (v : Datum D)
    (hnm : n ≠ m) : (d.insert n v).lookup m = d.lookup m := by
  induction d with
  | nil => simp [Dictionary.insert, Dictionary.lookup, hnm]
  | cons hd rest ih =>
    obtain ⟨k, u⟩ := hd
    by_cases hk : k = n
    · subst hk
      simp [Dictionary.insert, Dictionary.lookup, hnm]
    · by_cases hkm : k = m
      · subst hkm
        simp [Dictionary.insert, Dictionary.lookup, hk]
      · simp [Dictionary.insert, Dictionary.lookup, hk, hkm, ih]

theorem TargetIdentifier.lookup_get_status {D : Type} (ti : TargetIdentifier)
    (d : Dictionary D) (m : Name) (hr : m ≠ Name.rport) (ht : m ≠ Name.target) :
    (ti.get_status d).lookup m = d.lookup m := by
  unfold TargetIdentifier.get_status
  cases ti.target_ with
  | none => simp [Dictionary.lookup_insert_other _ _ _ _ (Ne.symm hr)]
  | some t =>
    simp [Dictionary.lookup_insert_other _ _ _ _ (Ne.symm hr),
      Dictionary.lookup_insert_other _ _ _ _ (Ne.symm ht)]

/-- What `get_status` reports under the weight key. -/
theorem SICConnection.get_status_weight {D : Type} (sizeof_this : Nat) (c : SICConnection D)
    (d : Dictionary D) :
    (c.get_status sizeof_this d).lookup Name.weight = some (Datum.double c.weight_) := by
  unfold SICConnection.get_status
  simp only []
  rw [Dictionary.lookup_insert_other _ _ _ _ (by decide), Dictionary.lookup_insert_self]

/-- What `get_status` reports under the delay key. -/
theorem SICConnection.get_status_delay {D : Type} (sizeof_this : Nat) (c : SICConnection D)
    (d : Dictionary D) :
    (c.get_status sizeof_this d).lookup Name.delay = some (Datum.long c.delay) := by
  unfold SICConnection.get_status Connection.get_status
  simp only []
  rw [Dictionary.lookup_insert_other _ _ _ _ (by decide),
    Dictionary.lookup_insert_other _ _ _ _ (by decide),
    TargetIdentifier.lookup_get_status _ _ _ (by decide) (by decide),
    Dictionary.lookup_insert_self]

/-! ## Delivery -/

/-- Claim C1: on a link whose target is bound, `send` succeeds for every event, delivers
exactly one event (the trace grows by one delivery, to the bound target), leaves the link as
it was, and the delivered event carries the link's weight, the link's delay in steps, the
bound target as receiver and the bound port, whatever the event carried before; its sender
and payload are the ones it came with. -/
theorem send_stamps_and_dispatches_once {D : Type} (c : SICConnection D) (e : SICEvent D)
    (t : Nat) (tr : List (Call D)) (tgt : NodePtr) (hbound : c.target_.target_ = some tgt) :
    ∃ e1 : SICEvent D,
      c.send e t tr = some (c, e1, tr ++ [Call.handle tgt e1]) ∧
      deliveries (tr ++ [Call.handle tgt e1]) = deliveries tr ++ [Call.handle tgt e1] ∧
      e1.w_ = c.weight_ ∧ e1.d_ = c.get_delay_steps ∧
      e1.receiver_ = some tgt ∧ e1.rp_ = c.target_.rport_ ∧
      e1.sender_ = e.sender_ ∧ e1.payload = e.payload := by
  refine ⟨(((e.set_weight c.weight_).set_delay_steps c.get_delay_steps).set_receiver
      tgt).set_rport c.get_rport, ?_, ?_, rfl, rfl, rfl, rfl, rfl, rfl⟩
  · simp [SICConnection.send, SICConnection.get_target, hbound, SICEvent.dispatch,
      SICEvent.set_weight, SICEvent.set_delay_steps, SICEvent.set_receiver, SICEvent.set_rport,
      SICConnection.get_delay_steps, SICConnection.get_rport]
  · simp [deliveries, Call.is_handle]

theorem send_stamps_and_dispatches_once_witness :
    (example_bound 2).toConnection.target_.target_ = some 2 ∧
    ∃ e1 : SICEvent ℚ,
      (example_bound 2).send (example_event 3) 0 [] =
        some (example_bound 2, e1, [] ++ [Call.handle 2 e1]) ∧
      deliveries ([] ++ [Call.handle 2 e1]) = deliveries [] ++ [Call.handle 2 e1] ∧
      e1.w_ = (example_bound 2).weight_ ∧ e1.d_ = (example_bound 2).get_delay_steps ∧
      e1.receiver_ = some 2 ∧ e1.rp_ = (example_bound 2).toConnection.target_.rport_ ∧
      e1.sender_ = (example_event 3).sender_ ∧ e1.payload = (example_event 3).payload :=
  ⟨rfl, send_stamps_and_dispatches_once (example_bound 2) (example_event 3) 0 [] 2 rfl⟩

/-- Claim C2: on a bound link of weight `w`, the event that `send` delivers still carries the
payload `p` it came with and carries weight `w`, so the amplitude at the target, payload times
event weight, is `p * w`: the link adds nothing to it. -/
theorem send_amplitude_is_payload_times_weight {D : Type} [Mul D] (c : SICConnection D)
    (e : SICEvent D) (t : Nat) (tr : List (Call D)) (tgt : NodePtr)
    (hbound : c.target_.target_ = some tgt) :
    ∃ e1 : SICEvent D,
      c.send e t tr = some (c, e1, tr ++ [Call.handle tgt e1]) ∧
      e1.payload = e.payload ∧ e1.w_ = c.weight_ ∧
      e1.amplitude = e.payload * c.weight_ := by
  refine ⟨(((e.set_weight c.weight_).set_delay_steps c.get_delay_steps).set_receiver
      tgt).set_rport c.get_rport, ?_, rfl, rfl, rfl⟩
  simp [SICConnection.send, SICConnection.get_target, hbound, SICEvent.dispatch,
    SICEvent.set_weight, SICEvent.set_delay_steps, SICEvent.set_receiver, SICEvent.set_rport,
    SICConnection.get_delay_steps, SICConnection.get_rport]

theorem send_amplitude_is_payload_times_weight_witness :
    (∃ e1 : SICEvent ℚ,
      (example_bound 2).send (example_event 3) 0 [] =
        some (example_bound 2, e1, [] ++ [Call.handle 2 e1]) ∧ e1.amplitude = 6) ∧
    (∃ e1 : SICEvent ℚ,
      (example_bound (-1)).send (example_event 3) 0 [] =
        some (example_bound (-1), e1, [] ++ [Call.handle 2 e1]) ∧ e1.amplitude = -3) := by
  constructor
  · obtain ⟨e1, hsend, _, _, hamp⟩ :=
      send_amplitude_is_payload_times_weight (example_bound 2) (example_event 3) 0 [] 2 rfl
    refine ⟨e1, hsend, ?_⟩
    rw [hamp]
    norm_num [example_event, example_bound]
  · obtain ⟨e1, hsend, _, _, hamp⟩ :=
      send_amplitude_is_payload_times_weight (example_bound (-1)) (example_event 3) 0 [] 2 rfl
    refine ⟨e1, hsend, ?_⟩
    rw [hamp]
    norm_num [example_event, example_bound]

/-! ## Validation -/

/-- Claim C5: when the source does not emit the event (`sends_secondary_event` throws) or
the target does not accept it at the receptor (`handles_test_event` throws),
`check_connection` ends with that very exception and the link, its target handle and port
included, is what it was before the call. -/
theorem check_connection_failure_leaves_link {D : Type} [Zero D] [One D] (s t : Node D)
    (receptor_type : Nat) (c : SICConnection D) (tr : List (Call D)) (ex : KernelException)
    (hfail : s.sends_secondary_event SICEvent.new = .error ex ∨
      ∃ ge1, s.sends_secondary_event SICEvent.new = .ok ge1 ∧
        t.handles_test_event (ge1.set_sender s.addr) receptor_type = .error ex) :
    (SICConnection.check_connection s t receptor_type c tr).1 = .error ex ∧
    (SICConnection.check_connection s t receptor_type c tr).2.1 = c := by
  rcases hfail with hs | ⟨ge1, hs, ht⟩
  · simp [SICConnection.check_connection, hs]
  · simp [SICConnection.check_connection, hs, ht]

theorem check_connection_failure_leaves_link_witness :
    ((SICConnection.check_connection example_neuron example_neuron 0 example_fresh []).1
        = .error .IllegalConnection ∧
      (SICConnection.check_connection example_neuron example_neuron 0 example_fresh []).2.1
        = example_fresh) ∧
    ((SICConnection.check_connection example_astrocyte example_neuron 1 example_fresh []).1
        = .error .UnknownReceptorType ∧
      (SICConnection.check_connection example_astrocyte example_neuron 1 example_fresh []).2.1
        = example_fresh) ∧
    example_fresh.toConnection.target_ = { target_ := none, rport_ := 0 } :=
  ⟨check_connection_failure_leaves_link example_neuron example_neuron 0 example_fresh []
      .IllegalConnection (Or.inl rfl),
    check_connection_failure_leaves_link example_astrocyte example_neuron 1 example_fresh []
      .UnknownReceptorType (Or.inr ⟨SICEvent.new, rfl, rfl⟩),
    rfl⟩

/-- Claim C6: when the source emits the event and the target, asked with the test event at
`receptor_type`, answers port `p`, `check_connection` succeeds; afterwards the bound port is
`p` and the bound target is `t`; the target handle that results is the same whatever the link
was before, so it is a function of `s`, `t` and `receptor_type`; and the test event handed to
the target carries `s` as its sender. -/
theorem check_connection_binds_port_and_target {D : Type} [Zero D] [One D] (s t : Node D)
    (receptor_type p : Nat) (ge1 : SICEvent D) (c : SICConnection D) (tr : List (Call D))
    (hs : s.sends_secondary_event SICEvent.new = .ok ge1)
    (ht : t.handles_test_event (ge1.set_sender s.addr) receptor_type = .ok p) :
    (SICConnection.check_connection s t receptor_type c tr).1 = .ok () ∧
    (SICConnection.check_connection s t receptor_type c tr).2.1.target_.rport_ = p ∧
    (SICConnection.check_connection s t receptor_type c tr).2.1.target_.target_
      = some t.addr ∧
    (∀ (c2 : SICConnection D) (tr2 : List (Call D)),
      (SICConnection.check_connection s t receptor_type c2 tr2).2.1.target_
        = (SICConnection.check_connection s t receptor_type c tr).2.1.target_) ∧
    (SICConnection.check_connection s t receptor_type c tr).2.2
      = tr ++ [Call.sends_secondary_event s.addr SICEvent.new,
          Call.handles_test_event t.addr (ge1.set_sender s.addr) receptor_type] ∧
    (ge1.set_sender s.addr).sender_ = some s.addr := by
  have hcall : ∀ (c2 : SICConnection D) (tr2 : List (Call D)),
      SICConnection.check_connection s t receptor_type c2 tr2 =
        (.ok (), { c2 with target_ := { target_ := some t.addr, rport_ := p } },
          tr2 ++ [Call.sends_secondary_event s.addr SICEvent.new,
            Call.handles_test_event t.addr (ge1.set_sender s.addr) receptor_type]) := by
    intro c2 tr2
    simp [SICConnection.check_connection, hs, ht, TargetIdentifier.set_rport,
      TargetIdentifier.set_target]
  refine ⟨?_, ?_, ?_, ?_, ?_, rfl⟩
  · rw [hcall]
  · rw [hcall]
  · rw [hcall]
  · intro c2 tr2
    rw [hcall, hcall]
  · rw [hcall]

theorem check_connection_binds_port_and_target_witness :
    (SICConnection.check_connection example_astrocyte example_neuron 0 example_fresh []).1
      = .ok () ∧
    (SICConnection.check_connection example_astrocyte example_neuron 0
      example_fresh []).2.1.target_.rport_ = 0 ∧
    (SICConnection.check_connection example_astrocyte example_neuron 0
      example_fresh []).2.1.target_.target_ = some example_neuron.addr ∧
    (∀ (c2 : SICConnection ℚ) (tr2 : List (Call ℚ)),
      (SICConnection.check_connection example_astrocyte example_neuron 0 c2 tr2).2.1.target_
        = (SICConnection.check_connection example_astrocyte example_neuron 0
            example_fresh []).2.1.target_) ∧
    (SICConnection.check_connection example_astrocyte example_neuron 0 example_fresh []).2.2
      = [] ++ [Call.sends_secondary_event example_astrocyte.addr SICEvent.new,
          Call.handles_test_event example_neuron.addr
            (SICEvent.set_sender SICEvent.new example_astrocyte.addr) 0] ∧
    (SICEvent.set_sender (SICEvent.new : SICEvent ℚ) example_astrocyte.addr).sender_
      = some example_astrocyte.addr :=
  check_connection_binds_port_and_target example_astrocyte example_neuron 0 0 SICEvent.new
    example_fresh [] rfl rfl

/-- Claim C9: whatever the source, the target and the receptor, and whether it succeeds or
throws, `check_connection` leaves the link's weight and delay as they were and delivers no
event: the deliveries recorded after the call are those recorded before it. -/
theorem check_connection_keeps_weight_delay_and_delivers_nothing {D : Type} [Zero D] [One D]
    (s t : Node D) (receptor_type : Nat) (c : SICConnection D) (tr : List (Call D)) :
    (SICConnection.check_connection s t receptor_type c tr).2.1.weight_ = c.weight_ ∧
    (SICConnection.check_connection s t receptor_type c tr).2.1.delay = c.delay ∧
    deliveries (SICConnection.check_connection s t receptor_type c tr).2.2 = deliveries tr := by
  unfold SICConnection.check_connection
  simp only []
  split
  · simp [deliveries, Call.is_handle]
  · split
    · simp [deliveries, Call.is_handle]
    · simp [deliveries, Call.is_handle, TargetIdentifier.set_rport,
        TargetIdentifier.set_target]

/-! ## The property interface -/

/-- The base update, by cases: it succeeds or it throws, and the base is left as it was. -/
theorem Connection.base_update_cases {D : Type} (c : Connection) (d : Dictionary D) :
    c.set_status d = (.ok (), c) ∨ ∃ ex, c.set_status d = (.error ex, c) := by
  unfold Connection.set_status
  cases d.lookup Name.delay with
  | none => exact Or.inl rfl
  | some v =>
    cases v with
    | double x => exact Or.inr ⟨_, rfl⟩
    | long n => exact Or.inl rfl
    | string x => exact Or.inr ⟨_, rfl⟩

/-- The update of the link when the base update succeeds: the weight statement runs on the
updated base. -/
theorem SICConnection.set_status_of_base_ok {D : Type} (c : SICConnection D)
    (d : Dictionary D) (b : Connection) (hb : c.toConnection.set_status d = (.ok (), b)) :
    c.set_status d =
      match updateValue_double d Name.weight c.weight_ with
      | .error ex => (.error ex, { c with toConnection := b })
      | .ok (_, w) => (.ok (), { toConnection := b, weight_ := w }) := by
  unfold SICConnection.set_status
  rw [hb]

/-- The update of the link when the base update throws: nothing else runs. -/
theorem SICConnection.set_status_of_base_error {D : Type} (c : SICConnection D)
    (d : Dictionary D) (ex : KernelException)
    (hb : c.toConnection.set_status d = (.error ex, c.toConnection)) :
    c.set_status d = (.error ex, c) := by
  unfold SICConnection.set_status
  rw [hb]

/-- The update of the link leaves the inherited part (target handle and delay) as it was. -/
theorem SICConnection.set_status_keeps_base {D : Type} (c : SICConnection D)
    (d : Dictionary D) : (c.set_status d).2.toConnection = c.toConnection := by
  rcases Connection.base_update_cases c.toConnection d with hb | ⟨ex1, hb⟩
  · rw [SICConnection.set_status_of_base_ok c d _ hb]
    cases updateValue_double d Name.weight c.weight_ <;> rfl
  · rw [SICConnection.set_status_of_base_error c d _ hb]

/-- The update of the link never touches the target handle. -/
theorem SICConnection.set_status_target {D : Type} (c : SICConnection D) (d : Dictionary D) :
    (c.set_status d).2.target_ = c.target_ := by
  rw [SICConnection.set_status_keeps_base]

/-- An update that throws leaves the link as it was. -/
theorem SICConnection.set_status_error_link {D : Type} (c : SICConnection D)
    (d : Dictionary D) (ex : KernelException) (hrej : (c.set_status d).1 = .error ex) :
    (c.set_status d).2 = c := by
  rcases Connection.base_update_cases c.toConnection d with hb | ⟨ex1, hb⟩
  · rw [SICConnection.set_status_of_base_ok c d _ hb] at hrej ⊢
    revert hrej
    cases updateValue_double d Name.weight c.weight_ with
    | error e1 => intro _; rfl
    | ok r => simp
  · rw [SICConnection.set_status_of_base_error c d _ hb]

/-- A sequence of updates leaves the inherited part of the link as it was. -/
theorem SICConnection.set_status_sequence_keeps_base {D : Type}
    (ds : List (Dictionary D)) (c : SICConnection D) :
    (ds.foldl (fun l u => (l.set_status u).2) c).toConnection = c.toConnection := by
  induction ds generalizing c with
  | nil => rfl
  | cons u rest ih =>
    rw [List.foldl_cons, ih, SICConnection.set_status_keeps_base]

/-- Claim C3: when the update dictionary holds the weight key with the double `w` and
`set_status` succeeds, the link's weight is `w` and `get_status` reports `w` under the weight
key, whatever the weight was before and whatever dictionary the snapshot is written into. -/
theorem set_status_weight_then_get_status {D : Type} (c : SICConnection D) (d : Dictionary D)
    (w : D) (sizeof_this : Nat) (d0 : Dictionary D)
    (hw : d.lookup Name.weight = some (Datum.double w))
    (hok : (c.set_status d).1 = .ok ()) :
    (c.set_status d).2.weight_ = w ∧
    ((c.set_status d).2.get_status sizeof_this d0).lookup Name.weight
      = some (Datum.double w) := by
  have hweight : (c.set_status d).2.weight_ = w := by
    rcases Connection.base_update_cases c.toConnection d with hb | ⟨ex1, hb⟩
    · rw [SICConnection.set_status_of_base_ok c d _ hb]
      simp [updateValue_double, hw]
    · rw [SICConnection.set_status_of_base_error c d _ hb] at hok
      simp at hok
  exact ⟨hweight, by rw [SICConnection.get_status_weight, hweight]⟩

theorem set_status_weight_then_get_status_witness :
    (example_bound 1 |>.set_status example_weight_update).2.weight_ = 5 / 2 ∧
    ((example_bound 1 |>.set_status example_weight_update).2.get_status 32 []).lookup
      Name.weight = some (Datum.double (5 / 2)) :=
  set_status_weight_then_get_status (example_bound 1) example_weight_update (5 / 2) 32 []
    rfl rfl

/-- Claim C4: `set_status` on the snapshot that `get_status` has just produced succeeds and
leaves the link exactly as it was (weight, delay and target handle); the other keys of the
snapshot, such as `size_of`, have no effect. -/
theorem get_status_then_set_status_is_identity {D : Type} (c : SICConnection D)
    (sizeof_this : Nat) (d0 : Dictionary D) :
    c.set_status (c.get_status sizeof_this d0) = (.ok (), c) := by
  have hd := SICConnection.get_status_delay sizeof_this c d0
  have hw := SICConnection.get_status_weight sizeof_this c d0
  have hb : c.toConnection.set_status (c.get_status sizeof_this d0) = (.ok (), c.toConnection) := by
    unfold Connection.set_status
    rw [hd]
  rw [SICConnection.set_status_of_base_ok c _ _ hb]
  simp [updateValue_double, hw]

/-- Claim C7: when `set_status` rejects the update dictionary (a weight entry or a delay entry
of the wrong type), the link after the failed call is the link before it: the weight has not
changed and the delay has not changed, also when the dictionary holds a valid delay entry
next to a wrongly typed weight entry. -/
theorem set_status_rejected_leaves_link {D : Type} (c : SICConnection D)
    (d : Dictionary D) (ex : KernelException) (hrej : (c.set_status d).1 = .error ex) :
    (c.set_status d).2 = c ∧
    (c.set_status d).2.weight_ = c.weight_ ∧
    (c.set_status d).2.delay = c.delay := by
  have hlink := SICConnection.set_status_error_link c d ex hrej
  exact ⟨hlink, by rw [hlink], by rw [hlink]⟩

theorem set_status_rejected_leaves_link_witness :
    (example_mixed_update.lookup Name.delay = some (Datum.long 5) ∧
      (example_fresh.set_status example_mixed_update).1 = .error .TypeMismatch ∧
      (example_fresh.set_status example_mixed_update).2 = example_fresh ∧
      (example_fresh.set_status example_mixed_update).2.weight_ = example_fresh.weight_ ∧
      (example_fresh.set_status example_mixed_update).2.delay = example_fresh.delay) ∧
    ((example_fresh.set_status example_bad_delay_update).1 = .error .TypeMismatch ∧
      (example_fresh.set_status example_bad_delay_update).2 = example_fresh ∧
      (example_fresh.set_status example_bad_delay_update).2.weight_ = example_fresh.weight_ ∧
      (example_fresh.set_status example_bad_delay_update).2.delay = example_fresh.delay) :=
  ⟨⟨rfl, rfl,
      set_status_rejected_leaves_link example_fresh example_mixed_update .TypeMismatch rfl⟩,
    ⟨rfl,
      set_status_rejected_leaves_link example_fresh example_bad_delay_update .TypeMismatch
        rfl⟩⟩

/-- Claim C8: `set_status` never changes the delay.  For every link and every update
dictionary the delay after the call is the delay before it; the call either succeeds (a
no-op on the delay) or is an explicit error that leaves the whole link as it was; and after
any sequence of updates the delay that `get_status` reports is the non-negative step count
the link started with. -/
theorem set_status_never_changes_delay {D : Type} (c : SICConnection D) (d : Dictionary D)
    (ds : List (Dictionary D)) (sizeof_this : Nat) (d0 : Dictionary D) :
    (c.set_status d).2.delay = c.delay ∧
    ((c.set_status d).1 = .ok () ∨
      ((∃ ex, (c.set_status d).1 = .error ex) ∧ (c.set_status d).2 = c)) ∧
    (ds.foldl (fun l u => (l.set_status u).2) c).delay = c.delay ∧
    (0 : Int) ≤ (c.delay : Int) ∧
    ((ds.foldl (fun l u => (l.set_status u).2) c).get_status sizeof_this d0).lookup
      Name.delay = some (Datum.long c.delay) := by
  have hseq := SICConnection.set_status_sequence_keeps_base ds c
  refine ⟨by rw [SICConnection.set_status_keeps_base], ?_, by rw [hseq],
    Int.natCast_nonneg _, ?_⟩
  · cases hres : (c.set_status d).1 with
    | ok u => exact Or.inl rfl
    | error ex =>
      exact Or.inr ⟨⟨ex, rfl⟩, SICConnection.set_status_error_link c d ex hres⟩
  · rw [SICConnection.get_status_delay, hseq]

/-- An update that holds only the delay entry 5 succeeds on a fresh link (delay 1) and leaves
it as it was; the snapshot taken afterwards reports delay 1. -/
theorem set_status_delay_entry_is_no_op :
    example_fresh.set_status example_delay_update = (.ok (), example_fresh) ∧
    ((example_fresh.set_status example_delay_update).2.get_status 32 []).lookup Name.delay
      = some (Datum.long 1) :=
  ⟨rfl, rfl⟩

/-! ## After validation -/

/-- On a bound link `send` succeeds and returns the link it was called on. -/
theorem SICConnection.send_of_bound {D : Type} (c : SICConnection D) (e : SICEvent D)
    (t : Nat) (tr : List (Call D)) (tgt : NodePtr) (hbound : c.target_.target_ = some tgt) :
    ∃ e1 : SICEvent D, c.send e t tr = some (c, e1, tr ++ [Call.handle tgt e1]) := by
  refine ⟨(((e.set_weight c.weight_).set_delay_steps c.get_delay_steps).set_receiver
      tgt).set_rport c.get_rport, ?_⟩
  simp [SICConnection.send, SICConnection.get_target, hbound, SICEvent.dispatch,
    SICEvent.set_weight, SICEvent.set_delay_steps, SICEvent.set_receiver, SICEvent.set_rport,
    SICConnection.get_delay_steps, SICConnection.get_rport]

/-- One call on a bound link goes through and leaves the target handle as it was. -/
theorem Op.apply_of_bound {D : Type} (op : Op D) (st : SICConnection D × List (Call D))
    (tgt : NodePtr) (hbound : st.1.target_.target_ = some tgt) :
    ∃ st1, op.apply st = some st1 ∧ st1.1.target_ = st.1.target_ := by
  cases op with
  | send e t =>
    obtain ⟨e1, he1⟩ := SICConnection.send_of_bound st.1 e t st.2 tgt hbound
    exact ⟨(st.1, st.2 ++ [Call.handle tgt e1]), by simp [Op.apply, he1], rfl⟩
  | get_status sz d => exact ⟨st, rfl, rfl⟩
  | set_status d =>
    exact ⟨((st.1.set_status d).2, st.2), rfl, SICConnection.set_status_target st.1 d⟩
  | set_weight w => exact ⟨(st.1.set_weight w, st.2), rfl, rfl⟩

/-- A sequence of calls on a bound link goes through and leaves the target handle as it
was. -/
theorem run_of_bound {D : Type} (ops : List (Op D)) (st : SICConnection D × List (Call D))
    (tgt : NodePtr) (hbound : st.1.target_.target_ = some tgt) :
    ∃ st1, run ops st = some st1 ∧ st1.1.target_ = st.1.target_ := by
  induction ops generalizing st with
  | nil => exact ⟨st, rfl, rfl⟩
  | cons op rest ih =>
    obtain ⟨st1, hst1, htarget1⟩ := Op.apply_of_bound op st tgt hbound
    obtain ⟨st2, hst2, htarget2⟩ := ih st1 (by rw [htarget1]; exact hbound)
    exact ⟨st2, by simp [run, hst1, hst2], by rw [htarget2, htarget1]⟩

/-- Claim C10: after `check_connection` has succeeded with link `c1`, every sequence of `send`,
`get_status`, `set_status` and `set_weight` calls goes through and ends on a link whose target
handle (target and port) is the one that validation bound, the target being `t`; and a `send`
on the link reached delivers to `t` and returns that link unchanged, weight and delay
included. -/
theorem validated_target_and_port_stay_bound {D : Type} [Zero D] [One D] (s t : Node D)
    (receptor_type : Nat) (c c1 : SICConnection D) (tr tr1 : List (Call D))
    (hval : SICConnection.check_connection s t receptor_type c tr = (.ok (), c1, tr1))
    (ops : List (Op D)) (tr2 : List (Call D)) :
    c1.target_.target_ = some t.addr ∧
    ∃ (c2 : SICConnection D) (tr3 : List (Call D)),
      run ops (c1, tr2) = some (c2, tr3) ∧
      c2.target_ = c1.target_ ∧
      ∀ (e : SICEvent D) (th : Nat), ∃ e1 : SICEvent D,
        c2.send e th tr3 = some (c2, e1, tr3 ++ [Call.handle t.addr e1]) := by
  have hbound : c1.target_.target_ = some t.addr := by
    unfold SICConnection.check_connection at hval
    simp only [] at hval
    split at hval
    · simp at hval
    · split at hval
      · simp at hval
      · simp only [Prod.mk.injEq, true_and] at hval
        rw [← hval.1]
        rfl
  obtain ⟨st1, hrun, htarget⟩ := run_of_bound ops (c1, tr2) t.addr hbound
  refine ⟨hbound, st1.1, st1.2, hrun, htarget, ?_⟩
  intro e th
  exact SICConnection.send_of_bound st1.1 e th st1.2 t.addr (by rw [htarget]; exact hbound)

theorem validated_target_and_port_stay_bound_witness :
    (SICConnection.check_connection example_astrocyte example_neuron 0
      example_fresh []).2.1.target_.target_ = some example_neuron.addr ∧
    ∃ (c2 : SICConnection ℚ) (tr3 : List (Call ℚ)),
      run [Op.set_weight 2, Op.set_status example_mixed_update, Op.send (example_event 3) 0,
          Op.get_status 32 [], Op.set_status example_weight_update]
        ((SICConnection.check_connection example_astrocyte example_neuron 0
          example_fresh []).2.1, []) = some (c2, tr3) ∧
      c2.target_ = (SICConnection.check_connection example_astrocyte example_neuron 0
        example_fresh []).2.1.target_ ∧
      ∀ (e : SICEvent ℚ) (th : Nat), ∃ e1 : SICEvent ℚ,
        c2.send e th tr3 = some (c2, e1, tr3 ++ [Call.handle example_neuron.addr e1]) :=
  validated_target_and_port_stay_bound example_astrocyte example_neuron 0 example_fresh
    (SICConnection.check_connection example_astrocyte example_neuron 0 example_fresh []).2.1
    []
    (SICConnection.check_connection example_astrocyte example_neuron 0 example_fresh []).2.2
    rfl
    [Op.set_weight 2, Op.set_status example_mixed_update, Op.send (example_event 3) 0,
      Op.get_status 32 [], Op.set_status example_weight_update]
    []

end nest
